/-
Verification of the tfjs-layers HDF5 conversion scripts
(`scripts/h5_conversion.py`, `scripts/benchmarks.py`) via a shallow
embedding in Lean 4.

Modelling conventions:
  * HDF5 groups are modelled as lookup functions `String → Option Tensor`
    (a missing key corresponds to a Python `KeyError`, modelled as
    `Except.error`).
  * Tensor contents are rational numbers (`ℚ`); `np.round` is decimal
    rounding with ties to even, Python 2's builtin `round` is decimal
    rounding with ties away from zero.
  * Python `None` returned by `convert_h5_group` / `convert_h5_group_to_ascii`
    when the name list is empty is `Option.none`.
  * Filesystem side effects are recorded as explicit event traces.
-/
import Mathlib

namespace TfjsH5

/-- A tensor as read from the HDF5 container: dtype string, shape and the
flattened element values. -/
structure Tensor where
  dtype : String
  shape : List Nat
  data : List ℚ
deriving DecidableEq, Repr

/-- Rounding to the nearest integer with ties to even: the semantics of
`np.round` at integer scale. -/
def roundHalfToEven (x : ℚ) : ℤ :=
  let f := ⌊x⌋
  if x - f < 1/2 then f
  else if x - f > 1/2 then f + 1
  else if f % 2 = 0 then f else f + 1

/-- `np.round(x, d)`: decimal rounding to `d` places, ties to even. -/
def npRound (d : ℤ) (x : ℚ) : ℚ :=
  (roundHalfToEven (x * (10:ℚ)^d) : ℚ) / (10:ℚ)^d

/-- Rounding to the nearest integer with ties away from zero: the semantics
of Python 2's builtin `round` at integer scale. -/
def roundHalfAway (x : ℚ) : ℤ :=
  if 0 ≤ x then ⌊x + 1/2⌋ else -⌊-x + 1/2⌋

/-- Python 2 `round(x, d)`: decimal rounding to `d` places, ties away
from zero. -/
def pyRound (d : ℤ) (x : ℚ) : ℚ :=
  (roundHalfAway (x * (10:ℚ)^d) : ℚ) / (10:ℚ)^d

/-- The converter object: `HDF5Converter` holds the single configuration
field `decimal_places`. -/
structure HDF5Converter where
  decimal_places : ℤ
deriving DecidableEq, Repr

namespace HDF5Converter

/-- `HDF5Converter.__init__`: rejects a negative `decimal_places` with a
`ValueError` before doing anything else (the constructor performs no
filesystem access: its type involves no filesystem state or events). -/
def init (decimal_places : ℤ) : Except String HDF5Converter :=
  if decimal_places < 0 then
    .error ("Expected decimal_places to be non-negative, but got " ++
      toString decimal_places)
  else
    .ok ⟨decimal_places⟩

/-- Python `s.endswith(suffix)` (written on the character lists so that it
evaluates by kernel reduction). -/
def strEndsWith (s suffix : String) : Bool :=
  suffix.data.isSuffixOf s.data

/-- Python `s[:-n]`: drop the last `n` characters. -/
def strDropRight (s : String) (n : Nat) : String :=
  String.mk (s.data.take (s.data.length - n))

/-- `_normalize_weight_name`: strip a trailing output-slot suffix `:0`. -/
def normalize_weight_name (name : String) : String :=
  if strEndsWith name ":0" then strDropRight name 2 else name

/-- One entry of a binary weight group: `{'name': ..., 'data': ...}`. -/
structure WeightEntry where
  name : String
  data : Tensor
deriving DecidableEq, Repr

/-- One entry of an ASCII/JSON weight group:
`{'name': ..., 'dtype': ..., 'shape': ..., 'value': ...}`. -/
structure AsciiEntry where
  name : String
  dtype : String
  shape : List Nat
  value : List ℚ
deriving DecidableEq, Repr

/-- Look a weight name up in an HDF5 group; a missing name raises
`KeyError`. -/
def getTensor (group : String → Option Tensor) (n : String) :
    Except String Tensor :=
  match group n with
  | some t => .ok t
  | none => .error ("KeyError: " ++ n)

/-- `convert_h5_group`: returns `None` when `names` is empty, otherwise the
list of `{name, data}` entries in the order of `names`. -/
def convert_h5_group (group : String → Option Tensor) (names : List String) :
    Except String (Option (List WeightEntry)) :=
  if names.isEmpty then .ok none
  else do
    let weight_values ← names.mapM (getTensor group)
    .ok (some ((names.zip weight_values).map
      (fun p => ⟨normalize_weight_name p.1, p.2⟩)))

/-- `convert_h5_group_to_ascii`: returns `None` when `names` is empty,
otherwise the list of `{name, dtype, shape, value}` entries with every
value rounded by `np.round(·, decimal_places)`. -/
def convert_h5_group_to_ascii (c : HDF5Converter)
    (group : String → Option Tensor) (names : List String) :
    Except String (Option (List AsciiEntry)) :=
  if names.isEmpty then .ok none
  else do
    let weight_values ← names.mapM (getTensor group)
    .ok (some ((names.zip weight_values).map
      (fun p => ⟨normalize_weight_name p.1, p.2.dtype, p.2.shape,
        p.2.data.map (npRound c.decimal_places)⟩)))

/-- The major component of a version string, as computed by
`keras_version.split('.')[0]`: the characters before the first `.` (the
whole string when there is no `.`). -/
def majorVersion (v : String) : String :=
  String.mk (v.data.takeWhile (fun c => c ≠ '.'))

/-- `_check_version`: raises `ValueError` unless the major Keras version
is `2`. -/
def check_version (keras_version : String) : Except String Unit :=
  if majorVersion keras_version ≠ "2" then
    .error ("Expected Keras version 2; got Keras version " ++ keras_version)
  else
    .ok ()

/-- One layer inside an HDF5 file: its `weight_names` attribute and its
weight datasets. -/
structure H5Layer where
  weight_names : List String
  dat : String → Option Tensor

/-- An HDF5 file produced by `Model.save_weights()`: top-level attributes
and the layer groups, keyed by the `layer_names` attribute. -/
structure H5WeightsFile where
  keras_version : String
  backend : String
  layer_names : List String
  layers : String → Option H5Layer

/-- Look a layer up in an HDF5 file; a missing name raises `KeyError`. -/
def getLayer (lookup : String → Option H5Layer) (n : String) :
    Except String H5Layer :=
  match lookup n with
  | some l => .ok l
  | none => .error ("KeyError: " ++ n)

/-- The shared group-collection loop of `h5_weights_to_tfjs_format` and
`h5_merged_saved_model_to_tfjs_format`: convert each layer in order and
append the group only when `convert_h5_group` did not return `None`. -/
def collectGroups (lookup : String → Option H5Layer) :
    List String → Except String (List (List WeightEntry))
  | [] => .ok []
  | ln :: rest => do
    let layer ← getLayer lookup ln
    let group ← convert_h5_group layer.dat layer.weight_names
    let gs ← collectGroups lookup rest
    match group with
    | none => .ok gs
    | some g => .ok (g :: gs)

/-- `h5_weights_to_tfjs_format`: check the version, then collect the
groups of all layers in `layer_names` order. -/
def h5_weights_to_tfjs_format (f : H5WeightsFile) :
    Except String (List (List WeightEntry)) := do
  check_version f.keras_version
  collectGroups f.layers f.layer_names

/-- A value inside the `optimizer_weights` HDF5 group: an `h5py.Dataset`
(with a scalar payload, as consumed by Python 2 `round`), an `h5py.Group`
of datasets, or anything else (which the code only logs). -/
inductive OptValue where
  | dataset (dtype : String) (shape : List Nat) (value : ℚ)
  | group (items : List (String × Tensor))
  | other

/-- An HDF5 file produced by `save_model` / `model.save()`: attributes,
the `model_weights` group and the optional `optimizer_weights` group. -/
structure H5MergedFile where
  keras_version : String
  backend : String
  model_config : String
  training_config : Option String
  model_weights_names : List String
  model_weights : String → Option H5Layer
  optimizer : Option (List (String × List (String × OptValue)))

/-- The topology/metadata dictionary built by
`h5_merged_saved_model_to_tfjs_format`. -/
structure ModelJson where
  keras_version : String
  backend : String
  model_config : String
  training_config : Option String
deriving DecidableEq, Repr

/-- `h5_merged_saved_model_to_tfjs_format`: check the version, build the
metadata dictionary, then collect the groups of all layers under
`model_weights`. -/
def h5_merged_saved_model_to_tfjs_format (f : H5MergedFile) :
    Except String (ModelJson × List (List WeightEntry)) := do
  check_version f.keras_version
  let model_json : ModelJson :=
    ⟨f.keras_version, f.backend, f.model_config, f.training_config⟩
  let groups ← collectGroups f.model_weights f.model_weights_names
  .ok (model_json, groups)

/-- Python-dict assignment `d[k] = v` on an insertion-ordered association
list: replace in place when the key is present, append otherwise. -/
def dictSet {α : Type} (l : List (String × α)) (k : String) (v : α) :
    List (String × α) :=
  if l.any (fun p => p.1 = k) then
    l.map (fun p => if p.1 = k then (k, v) else p)
  else l ++ [(k, v)]

/-- Python-dict lookup: the (first, hence unique) entry for a key. -/
def dictGet {α : Type} (l : List (String × α)) (k : String) : Option α :=
  (l.find? (fun p => p.1 = k)).map Prod.snd

/-- The weights-dictionary loop shared by `h5_weights_to_json` and the
`model_weights` part of `h5_merged_saved_model_to_json`: for each layer
name, in order, assign `d[layer_name] = convert_h5_group_to_ascii(...)`. -/
def collectAsciiAux (c : HDF5Converter) (lookup : String → Option H5Layer)
    (acc : List (String × Option (List AsciiEntry))) :
    List String → Except String (List (String × Option (List AsciiEntry)))
  | [] => .ok acc
  | ln :: rest => do
    let layer ← getLayer lookup ln
    let v ← c.convert_h5_group_to_ascii layer.dat layer.weight_names
    collectAsciiAux c lookup (dictSet acc ln v) rest

/-- `collectAsciiAux` started from the empty dictionary. -/
def collectAscii (c : HDF5Converter) (lookup : String → Option H5Layer)
    (names : List String) :
    Except String (List (String × Option (List AsciiEntry))) :=
  collectAsciiAux c lookup [] names

/-- The output dictionary of `h5_weights_to_json`. -/
structure WeightsJson where
  keras_version : String
  backend : String
  weights : List (String × Option (List AsciiEntry))

/-- `h5_weights_to_json`: check the version, then build the per-layer
weights dictionary with `convert_h5_group_to_ascii`. -/
def h5_weights_to_json (c : HDF5Converter) (f : H5WeightsFile) :
    Except String WeightsJson := do
  check_version f.keras_version
  let ws ← collectAscii c f.layers f.layer_names
  .ok ⟨f.keras_version, f.backend, ws⟩

/-- A value stored in the `optimizer_weights` output dictionary: the
singleton scalar entry made from an `h5py.Dataset`, or the result of
`convert_h5_group_to_ascii` on an `h5py.Group`. -/
inductive OptOut where
  | fromDataset (name : String) (dtype : String) (shape : List Nat)
      (value : ℚ)
  | fromGroup (entries : Option (List AsciiEntry))
deriving DecidableEq, Repr

/-- The inner `for key, value in optimizer.items()` loop of
`h5_merged_saved_model_to_json`: each dataset/group item overwrites
`optimizer_weights[optimizer_name]`; other items are only logged. -/
def optimizerItemsLoop (c : HDF5Converter) (optimizer_name : String)
    (acc : List (String × OptOut)) :
    List (String × OptValue) → Except String (List (String × OptOut))
  | [] => .ok acc
  | (key, value) :: rest =>
    match value with
    | .dataset dtype shape v =>
      optimizerItemsLoop c optimizer_name
        (dictSet acc optimizer_name
          (.fromDataset (normalize_weight_name key) dtype shape
            (pyRound c.decimal_places v))) rest
    | .group items => do
      let entries ← c.convert_h5_group_to_ascii
        (fun n => dictGet items n) (items.map Prod.fst)
      optimizerItemsLoop c optimizer_name
        (dictSet acc optimizer_name (.fromGroup entries)) rest
    | .other => optimizerItemsLoop c optimizer_name acc rest

/-- The outer loop over `optimizer_weights` member names. -/
def optimizerLoop (c : HDF5Converter) (acc : List (String × OptOut)) :
    List (String × List (String × OptValue)) →
    Except String (List (String × OptOut))
  | [] => .ok acc
  | (optimizer_name, items) :: rest => do
    let acc' ← optimizerItemsLoop c optimizer_name acc items
    optimizerLoop c acc' rest

/-- The output dictionary of `h5_merged_saved_model_to_json`. -/
structure MergedJson where
  keras_version : String
  backend : String
  model_config : String
  training_config : Option String
  model_weights : List (String × Option (List AsciiEntry))
  optimizer_weights : List (String × OptOut)

/-- The `if 'optimizer_weights' in h5file` part of
`h5_merged_saved_model_to_json`: an absent group contributes the empty
dictionary. -/
def optimizerPart (c : HDF5Converter)
    (opt : Option (List (String × List (String × OptValue)))) :
    Except String (List (String × OptOut)) :=
  match opt with
  | none => .ok []
  | some opts => optimizerLoop c [] opts

/-- `h5_merged_saved_model_to_json`: check the version, build the metadata
fields, the `model_weights` dictionary, and (when the file has an
`optimizer_weights` group) the `optimizer_weights` dictionary. -/
def h5_merged_saved_model_to_json (c : HDF5Converter) (f : H5MergedFile) :
    Except String MergedJson := do
  check_version f.keras_version
  let mw ← collectAscii c f.model_weights f.model_weights_names
  let ow ← optimizerPart c f.optimizer
  .ok ⟨f.keras_version, f.backend, f.model_config, f.training_config,
    mw, ow⟩

end HDF5Converter

/-- A filesystem side effect performed by `write_artifacts` / `save_model`,
recorded in program order. -/
inductive FsEvent where
  | writeTempH5
  | mkdirOut (d : String)
  | writeJson (p : String)
  | writeWeights (d : String)
  | removeTempH5
deriving DecidableEq, Repr

/-- `write_artifacts`: when `topology` is truthy (non-empty), write the
topology JSON file, then call `write_weights.write_weights` on the output
directory. The returned trace lists the filesystem effects in the order
the code performs them. -/
def HDF5Converter.write_artifacts (topology : Option HDF5Converter.ModelJson)
    (output_dir : String) (topology_filename : String) : List FsEvent :=
  (match topology with
   | some _ => [.writeJson (output_dir ++ "/" ++ topology_filename)]
   | none => []) ++ [.writeWeights output_dir]

/-- The view of the filesystem consulted by `save_model`:
`os.path.isfile` and `os.path.isdir` on paths. -/
structure FS where
  isfile : String → Bool
  isdir : String → Bool

/-- `save_model`: write the model to a temporary HDF5 file, convert it with
`h5_merged_saved_model_to_tfjs_format`, fail when `artifacts_dir` exists
as a regular file, create `artifacts_dir` when it is not a directory,
write the artifacts, and remove the temporary file. The Keras model
argument is represented by the merged HDF5 file `keras.models.save_model`
writes for it. -/
def save_model (fm : HDF5Converter.H5MergedFile) (fs : FS)
    (artifacts_dir : String) : List FsEvent × Except String Unit :=
  match HDF5Converter.h5_merged_saved_model_to_tfjs_format fm with
  | .error e => ([.writeTempH5], .error e)
  | .ok (topology_json, _weights_group) =>
    if fs.isfile artifacts_dir then
      ([.writeTempH5],
       .error ("Path \"" ++ artifacts_dir ++ "\" already exists as a file."))
    else
      ([.writeTempH5] ++
        (if fs.isdir artifacts_dir then [] else [.mkdirOut artifacts_dir]) ++
        HDF5Converter.write_artifacts (some topology_json) artifacts_dir
          "topology.json" ++
        [.removeTempH5],
       .ok ())

/-- Whether an event writes an output artifact (the topology JSON file or
the shard/weight files) into the output directory. -/
def writesArtifact : FsEvent → Bool
  | .writeJson _ => true
  | .writeWeights _ => true
  | _ => false

namespace Benchmarks

/-- `benchmarks.py` module constants. -/
def FIT_BURNIN_EPOCHS : Nat := 1

def PREDICT_BURNINS : Nat := 1

def PREDICT_RUNS : Nat := 20

/-- A JSON value in the `data.json` record. -/
inductive JVal where
  | str (v : String)
  | nat (v : Nat)
  | rat (v : ℚ)
  | shape (v : List Nat)
deriving DecidableEq, Repr

/-- A side effect performed by `benchmark_and_serialize_model`, recorded
in program order. -/
inductive BEvent where
  | fit (epochs : Nat)
  | timeRead (i : Nat)
  | predict
  | saveModel
  | writeDataJson
deriving DecidableEq, Repr

/-- `benchmark_and_serialize_model`: the burn-in `fit()`, the timed
`fit()`, the burn-in `predict()` runs, the timed `predict()` runs, the
model serialization and the `data.json` write, with `time.time()` modelled
as a stream `clock` of readings (call `i` returns `clock i`; the code
reads the clock four times). Returns the event trace, the `data.json`
record as the ordered field list, and the `(train_time, predict_time)`
pair the function returns. -/
def benchmark_and_serialize_model (model_name description : String)
    (input_shape target_shape : List Nat) (optimizer loss : String)
    (batch_size train_epochs : Nat) (clock : Nat → ℚ) :
    List BEvent × List (String × JVal) × (ℚ × ℚ) :=
  let train_t_begin := clock 0
  let train_t_end := clock 1
  let predict_t_begin := clock 2
  let predict_t_end := clock 3
  let train_time := (train_t_end - train_t_begin) / (train_epochs : ℚ)
  let predict_time := (predict_t_end - predict_t_begin) / (PREDICT_RUNS : ℚ)
  let data : List (String × JVal) :=
    [("name", .str model_name),
     ("description", .str description),
     ("optimizer", .str optimizer),
     ("loss", .str loss),
     ("input_shape", .shape input_shape),
     ("target_shape", .shape target_shape),
     ("batch_size", .nat batch_size),
     ("train_epochs", .nat train_epochs),
     ("train_time", .rat train_time),
     ("predict_time", .rat predict_time)]
  let events : List BEvent :=
    [.fit FIT_BURNIN_EPOCHS, .timeRead 0, .fit train_epochs, .timeRead 1] ++
    List.replicate PREDICT_BURNINS .predict ++ [.timeRead 2] ++
    List.replicate PREDICT_RUNS .predict ++
    [.timeRead 3, .saveModel, .writeDataJson]
  (events, data, (train_time, predict_time))

end Benchmarks

/-! ### Basic helpers about `Except` -/

/-- Whether an `Except` computation failed. -/
def isErr {ε α : Type} : Except ε α → Bool
  | .error _ => true
  | .ok _ => false

theorem except_bind_ok {ε α β : Type} (a : α) (f : α → Except ε β) :
    (Except.ok a >>= f) = f a := rfl

theorem except_bind_error {ε α β : Type} (e : ε) (f : α → Except ε β) :
    ((Except.error e : Except ε α) >>= f) = .error e := rfl

theorem except_ok_inj {ε α : Type} {a b : α}
    (h : (Except.ok a : Except ε α) = .ok b) : a = b := by
  cases h; rfl

/-- `mapM` over `Except` succeeds exactly with the pointwise images, in
order. -/
theorem mapM_except_ok_forall₂ {α β : Type} (f : α → Except String β) :
    ∀ (xs : List α) (ys : List β), xs.mapM f = .ok ys →
      List.Forall₂ (fun x y => f x = .ok y) xs ys := by
  intro xs
  induction xs with
  | nil =>
    intro ys h
    rw [List.mapM_nil] at h
    cases h
    exact .nil
  | cons x xs ih =>
    intro ys h
    rw [List.mapM_cons] at h
    cases hf : f x with
    | error e =>
      rw [hf] at h
      simp only [except_bind_error] at h
      cases h
    | ok y =>
      rw [hf] at h
      simp only [except_bind_ok] at h
      cases hm : xs.mapM f with
      | error e =>
        rw [hm] at h
        simp only [except_bind_error] at h
        cases h
      | ok ys2 =>
        rw [hm] at h
        simp only [except_bind_ok] at h
        cases h
        exact .cons hf (ih ys2 hm)

/-- Mapping a function over the zip of two pointwise-related lists yields a
list pointwise related to the first. -/
theorem forall₂_zip_map {α β γ : Type} {R : α → β → Prop} {S : α → γ → Prop}
    (f : α × β → γ) (hs : ∀ a b, R a b → S a (f (a, b))) :
    ∀ {as : List α} {bs : List β}, List.Forall₂ R as bs →
      List.Forall₂ S as ((as.zip bs).map f) := by
  intro as bs h
  induction h with
  | nil => exact .nil
  | cons hab _ ih => exact .cons (hs _ _ hab) ih

/-- A pointwise functional relation determines the `map` of the second
list. -/
theorem forall₂_map_eq {α β : Type} {f : β → String} {g : α → String}
    {as : List α} {bs : List β}
    (h : List.Forall₂ (fun a b => f b = g a) as bs) :
    bs.map f = as.map g := by
  induction h with
  | nil => rfl
  | cons hab _ ih => simp [List.map, hab, ih]

namespace HDF5Converter

/-! ### Characterizing the group conversions -/

theorem convert_h5_group_nil (group : String → Option Tensor) :
    convert_h5_group group [] = .ok none := rfl

theorem convert_h5_group_to_ascii_nil (c : HDF5Converter)
    (group : String → Option Tensor) :
    c.convert_h5_group_to_ascii group [] = .ok none := rfl

/-- `convert_h5_group` only returns `None` on an empty name list. -/
theorem convert_h5_group_ok_none {group : String → Option Tensor}
    {names : List String}
    (h : convert_h5_group group names = .ok none) : names = [] := by
  unfold convert_h5_group at h
  by_cases he : names.isEmpty
  · exact List.isEmpty_iff.mp he
  · rw [if_neg he] at h
    cases hm : names.mapM (getTensor group) with
    | error e => rw [hm] at h; cases h
    | ok vs =>
      rw [hm] at h
      simp only [except_bind_ok] at h
      cases h

/-- Produced entries of `convert_h5_group`, in order: the normalized names
paired with the exact, untransformed source tensors. -/
theorem convert_h5_group_ok_some {group : String → Option Tensor}
    {names : List String} {out : List WeightEntry}
    (h : convert_h5_group group names = .ok (some out)) :
    List.Forall₂
      (fun n e => group n = some e.data ∧ e.name = normalize_weight_name n)
      names out := by
  unfold convert_h5_group at h
  by_cases he : names.isEmpty
  · rw [if_pos he] at h; cases h
  · rw [if_neg he] at h
    cases hm : names.mapM (getTensor group) with
    | error e => rw [hm] at h; cases h
    | ok vs =>
      rw [hm] at h
      simp only [except_bind_ok] at h
      have hout := except_ok_inj h
      have hv := mapM_except_ok_forall₂ (getTensor group) names vs hm
      cases hout
      refine forall₂_zip_map _ (fun n t ht => ?_) hv
      refine ⟨?_, rfl⟩
      unfold getTensor at ht
      cases hg : group n with
      | none => rw [hg] at ht; cases ht
      | some t2 => rw [hg] at ht; cases ht; rfl

/-- `convert_h5_group_to_ascii` only returns `None` on an empty name
list. -/
theorem convert_h5_group_to_ascii_ok_none {c : HDF5Converter}
    {group : String → Option Tensor} {names : List String}
    (h : c.convert_h5_group_to_ascii group names = .ok none) :
    names = [] := by
  unfold convert_h5_group_to_ascii at h
  by_cases he : names.isEmpty
  · exact List.isEmpty_iff.mp he
  · rw [if_neg he] at h
    cases hm : names.mapM (getTensor group) with
    | error e => rw [hm] at h; cases h
    | ok vs =>
      rw [hm] at h
      simp only [except_bind_ok] at h
      cases h

/-- Produced entries of `convert_h5_group_to_ascii`, in order: normalized
names, the source dtype and shape, and the source values rounded by
`np.round(·, decimal_places)`. -/
theorem convert_h5_group_to_ascii_ok_some {c : HDF5Converter}
    {group : String → Option Tensor} {names : List String}
    {out : List AsciiEntry}
    (h : c.convert_h5_group_to_ascii group names = .ok (some out)) :
    List.Forall₂
      (fun n e => ∃ t, group n = some t ∧
        e.name = normalize_weight_name n ∧ e.dtype = t.dtype ∧
        e.shape = t.shape ∧
        e.value = t.data.map (npRound c.decimal_places))
      names out := by
  unfold convert_h5_group_to_ascii at h
  by_cases he : names.isEmpty
  · rw [if_pos he] at h; cases h
  · rw [if_neg he] at h
    cases hm : names.mapM (getTensor group) with
    | error e => rw [hm] at h; cases h
    | ok vs =>
      rw [hm] at h
      simp only [except_bind_ok] at h
      have hout := except_ok_inj h
      have hv := mapM_except_ok_forall₂ (getTensor group) names vs hm
      cases hout
      refine forall₂_zip_map _ (fun n t ht => ?_) hv
      refine ⟨t, ?_, rfl, rfl, rfl, rfl⟩
      unfold getTensor at ht
      cases hg : group n with
      | none => rw [hg] at ht; cases ht
      | some t2 => rw [hg] at ht; cases ht; rfl

/-! ### The group-collection loop -/

theorem except_bind_pure {ε α : Type} (x : Except ε α) :
    (x >>= fun a => Except.ok a) = x := by
  cases x <;> rfl

theorem collectGroups_cons (lookup : String → Option H5Layer)
    (ln : String) (rest : List String) :
    collectGroups lookup (ln :: rest) = (do
      let layer ← getLayer lookup ln
      let group ← convert_h5_group layer.dat layer.weight_names
      let gs ← collectGroups lookup rest
      match group with
      | none => .ok gs
      | some g => .ok (g :: gs)) := rfl

/-- A layer whose `weight_names` attribute is empty is skipped by the
collection loop: it contributes no group entry at all. -/
theorem collectGroups_skip {lookup : String → Option H5Layer} {ln : String}
    {layer : H5Layer} (hl : lookup ln = some layer)
    (hw : layer.weight_names = []) (pre post : List String) :
    collectGroups lookup (pre ++ ln :: post) =
      collectGroups lookup (pre ++ post) := by
  induction pre with
  | nil =>
    show collectGroups lookup (ln :: post) = collectGroups lookup post
    rw [collectGroups_cons]
    unfold getLayer
    rw [hl]
    simp only [except_bind_ok, hw, convert_h5_group_nil]
    exact except_bind_pure _
  | cons p pre ih =>
    show collectGroups lookup (p :: (pre ++ ln :: post)) =
      collectGroups lookup (p :: (pre ++ post))
    rw [collectGroups_cons, collectGroups_cons, ih]

/-- The name lists of the groups returned by the collection loop: the
layers in declaration order, each non-empty layer contributing its
`weight_names` in order (normalized), and empty layers skipped. -/
theorem collectGroups_ok_names {lookup : String → Option H5Layer} :
    ∀ {lns : List String} {gs : List (List WeightEntry)},
      collectGroups lookup lns = .ok gs →
      gs.map (List.map WeightEntry.name) =
        lns.filterMap (fun ln => (lookup ln).bind (fun l =>
          if l.weight_names.isEmpty then none
          else some (l.weight_names.map normalize_weight_name))) := by
  intro lns
  induction lns with
  | nil =>
    intro gs h
    cases h
    rfl
  | cons ln rest ih =>
    intro gs h
    unfold collectGroups at h
    cases hl : lookup ln with
    | none => unfold getLayer at h; rw [hl] at h; cases h
    | some layer =>
      unfold getLayer at h
      rw [hl] at h
      simp only [except_bind_ok] at h
      cases hg : convert_h5_group layer.dat layer.weight_names with
      | error e => rw [hg] at h; cases h
      | ok og =>
        rw [hg] at h
        simp only [except_bind_ok] at h
        cases hr : collectGroups lookup rest with
        | error e => rw [hr] at h; cases h
        | ok gs2 =>
          rw [hr] at h
          simp only [except_bind_ok] at h
          cases og with
          | none =>
            cases h
            have hempty : layer.weight_names = [] :=
              convert_h5_group_ok_none hg
            simp only [List.filterMap_cons, hl, Option.some_bind, hempty,
              List.isEmpty_nil, if_true]
            exact ih hr
          | some g =>
            cases h
            have hform := convert_h5_group_ok_some hg
            have hnames : g.map WeightEntry.name =
                layer.weight_names.map normalize_weight_name :=
              forall₂_map_eq (List.Forall₂.imp (fun a b hy => hy.2) hform)
            have hne : layer.weight_names.isEmpty = false := by
              cases hwn : layer.weight_names with
              | nil => rw [hwn, convert_h5_group_nil] at hg; cases hg
              | cons a b => rfl
            simp only [List.map_cons, List.filterMap_cons, hl,
              Option.some_bind, hne, Bool.false_eq_true, if_false,
              List.cons.injEq]
            exact ⟨hnames, ih hr⟩

/-! ### Dictionary lemmas for the JSON paths -/

theorem dictGet_cons_of_eq {α : Type} (p : String × α)
    (l : List (String × α)) (k : String) (h : p.1 = k) :
    dictGet (p :: l) k = some p.2 := by
  unfold dictGet
  rw [List.find?_cons_of_pos _ (by simpa using h)]
  rfl

theorem dictGet_cons_of_ne {α : Type} (p : String × α)
    (l : List (String × α)) (k : String) (h : ¬ p.1 = k) :
    dictGet (p :: l) k = dictGet l k := by
  unfold dictGet
  rw [List.find?_cons_of_neg _ (by simpa using h)]

theorem dictSet_cons_eq {α : Type} (p : String × α)
    (rest : List (String × α)) (k : String) (v : α) (h : p.1 = k) :
    dictSet (p :: rest) k v =
      (k, v) :: rest.map (fun q => if q.1 = k then (k, v) else q) := by
  unfold dictSet
  rw [if_pos (by simp [List.any_cons, h]), List.map_cons, if_pos h]

theorem dictSet_cons_ne {α : Type} (p : String × α)
    (rest : List (String × α)) (k : String) (v : α) (h : ¬ p.1 = k) :
    dictSet (p :: rest) k v = p :: dictSet rest k v := by
  unfold dictSet
  by_cases hr : rest.any (fun q => q.1 = k)
  · rw [if_pos (by simp [List.any_cons, hr]), if_pos hr, List.map_cons,
      if_neg h]
  · rw [if_neg (by simp [List.any_cons, h]; simpa using hr), if_neg hr,
      List.cons_append]

theorem dictGet_mapReplace_ne {α : Type} (l : List (String × α))
    (k k2 : String) (v : α) (h : k2 ≠ k) :
    dictGet (l.map (fun q => if q.1 = k then (k, v) else q)) k2 =
      dictGet l k2 := by
  induction l with
  | nil => rfl
  | cons q rest ih =>
    rw [List.map_cons]
    by_cases hq : q.1 = k
    · rw [if_pos hq,
        dictGet_cons_of_ne _ _ _ (fun hc => h hc.symm),
        dictGet_cons_of_ne _ _ _ (fun hc => h (by rw [← hc, hq]))]
      exact ih
    · rw [if_neg hq]
      by_cases hq2 : q.1 = k2
      · rw [dictGet_cons_of_eq _ _ _ hq2, dictGet_cons_of_eq _ _ _ hq2]
      · rw [dictGet_cons_of_ne _ _ _ hq2, dictGet_cons_of_ne _ _ _ hq2]
        exact ih

theorem dictGet_dictSet_self {α : Type} (l : List (String × α))
    (k : String) (v : α) : dictGet (dictSet l k v) k = some v := by
  induction l with
  | nil => exact dictGet_cons_of_eq _ _ _ rfl
  | cons p rest ih =>
    by_cases hp : p.1 = k
    · rw [dictSet_cons_eq _ _ _ _ hp, dictGet_cons_of_eq _ _ _ rfl]
    · rw [dictSet_cons_ne _ _ _ _ hp, dictGet_cons_of_ne _ _ _ hp]
      exact ih

theorem dictGet_dictSet_ne {α : Type} (l : List (String × α))
    (k k2 : String) (v : α) (h : k2 ≠ k) :
    dictGet (dictSet l k v) k2 = dictGet l k2 := by
  induction l with
  | nil =>
    show dictGet ([] ++ [(k, v)]) k2 = dictGet [] k2
    rw [List.nil_append, dictGet_cons_of_ne _ _ _ (fun hc => h hc.symm)]
  | cons p rest ih =>
    by_cases hp : p.1 = k
    · rw [dictSet_cons_eq _ _ _ _ hp,
        dictGet_cons_of_ne _ _ _ (fun hc => h hc.symm),
        dictGet_mapReplace_ne _ _ _ _ h,
        dictGet_cons_of_ne _ _ _ (fun hc => h (by rw [← hc, hp]))]
    · rw [dictSet_cons_ne _ _ _ _ hp]
      by_cases hp2 : p.1 = k2
      · rw [dictGet_cons_of_eq _ _ _ hp2, dictGet_cons_of_eq _ _ _ hp2]
      · rw [dictGet_cons_of_ne _ _ _ hp2, dictGet_cons_of_ne _ _ _ hp2]
        exact ih

theorem collectAsciiAux_cons (c : HDF5Converter)
    (lookup : String → Option H5Layer)
    (acc : List (String × Option (List AsciiEntry)))
    (ln : String) (rest : List String) :
    collectAsciiAux c lookup acc (ln :: rest) = (do
      let layer ← getLayer lookup ln
      let v ← c.convert_h5_group_to_ascii layer.dat layer.weight_names
      collectAsciiAux c lookup (dictSet acc ln v) rest) := rfl

/-- Once the dictionary maps the empty layer `ln` to `None`, processing
further layers keeps that binding (a repeated occurrence of `ln` rewrites
the same `None`, since the layer lookup is a function of the name). -/
theorem collectAsciiAux_preserves_none {c : HDF5Converter}
    {lookup : String → Option H5Layer} {ln : String} {layer : H5Layer}
    (hl : lookup ln = some layer) (hw : layer.weight_names = []) :
    ∀ (names : List String)
      (acc res : List (String × Option (List AsciiEntry))),
      dictGet acc ln = some none →
      collectAsciiAux c lookup acc names = .ok res →
      dictGet res ln = some none := by
  intro names
  induction names with
  | nil =>
    intro acc res hacc h
    unfold collectAsciiAux at h
    cases h
    exact hacc
  | cons n rest ih =>
    intro acc res hacc h
    rw [collectAsciiAux_cons] at h
    cases hn : lookup n with
    | none => unfold getLayer at h; rw [hn] at h; cases h
    | some layer2 =>
      unfold getLayer at h
      rw [hn] at h
      simp only [except_bind_ok] at h
      cases hv : c.convert_h5_group_to_ascii layer2.dat
          layer2.weight_names with
      | error e => rw [hv] at h; cases h
      | ok v =>
        rw [hv] at h
        simp only [except_bind_ok] at h
        refine ih (dictSet acc n v) res ?_ h
        by_cases hnl : n = ln
        · subst hnl
          have hlay : layer2 = layer := by
            rw [hn] at hl
            exact Option.some_inj.mp hl
          subst hlay
          rw [hw, convert_h5_group_to_ascii_nil] at hv
          cases hv
          exact dictGet_dictSet_self acc n none
        · rw [dictGet_dictSet_ne acc n ln v (fun hc => hnl hc.symm)]
          exact hacc

/-- Processing a list of layer names containing the empty layer `ln`
leaves the output dictionary mapping `ln` to `None`. -/
theorem collectAsciiAux_mem_none {c : HDF5Converter}
    {lookup : String → Option H5Layer} {ln : String} {layer : H5Layer}
    (hl : lookup ln = some layer) (hw : layer.weight_names = []) :
    ∀ (names : List String)
      (acc res : List (String × Option (List AsciiEntry))),
      ln ∈ names →
      collectAsciiAux c lookup acc names = .ok res →
      dictGet res ln = some none := by
  intro names
  induction names with
  | nil =>
    intro acc res hmem
    cases hmem
  | cons n rest ih =>
    intro acc res hmem h
    rw [collectAsciiAux_cons] at h
    cases hn : lookup n with
    | none => unfold getLayer at h; rw [hn] at h; cases h
    | some layer2 =>
      unfold getLayer at h
      rw [hn] at h
      simp only [except_bind_ok] at h
      cases hv : c.convert_h5_group_to_ascii layer2.dat
          layer2.weight_names with
      | error e => rw [hv] at h; cases h
      | ok v =>
        rw [hv] at h
        simp only [except_bind_ok] at h
        by_cases hnl : n = ln
        · subst hnl
          have hlay : layer2 = layer := by
            rw [hn] at hl
            exact Option.some_inj.mp hl
          subst hlay
          rw [hw, convert_h5_group_to_ascii_nil] at hv
          cases hv
          exact collectAsciiAux_preserves_none hl hw rest _ res
            (dictGet_dictSet_self acc n none) h
        · have hmem2 : ln ∈ rest := by
            cases hmem with
            | head => exact absurd rfl hnl
            | tail _ hm => exact hm
          exact ih (dictSet acc n v) res hmem2 h

/-- Names without the `:0` suffix are left unchanged by normalization. -/
theorem normalize_of_no_suffix (s : String)
    (h : strEndsWith s ":0" = false) : normalize_weight_name s = s := by
  unfold normalize_weight_name
  rw [h]
  exact if_neg Bool.false_ne_true

end HDF5Converter

open HDF5Converter

/-- C8 (counterexample): normalization is not idempotent on every weight
name: on `"kernel:0:0"` a second application strips a second `:0`. -/
theorem normalize_weight_name_not_idempotent :
    normalize_weight_name (normalize_weight_name "kernel:0:0") ≠
      normalize_weight_name "kernel:0:0" := by decide

/-- C8 (amended): normalizing `"kernel:0"` yields `"kernel"`; a name
without the trailing `":0"` suffix is returned unchanged; and applying
normalization twice equals applying it once for every name whose
once-normalized form does not itself end in `":0"` (normalization strips
exactly one trailing `":0"`, so idempotence fails exactly on names such as
`"kernel:0:0"`). -/
theorem normalize_weight_name_spec :
    normalize_weight_name "kernel:0" = "kernel" ∧
    (∀ s, strEndsWith s ":0" = false → normalize_weight_name s = s) ∧
    (∀ s, strEndsWith (normalize_weight_name s) ":0" = false →
       normalize_weight_name (normalize_weight_name s) =
         normalize_weight_name s) := by
  refine ⟨by decide, fun s h => normalize_of_no_suffix s h,
    fun s h => normalize_of_no_suffix _ h⟩

/-- C8 (witness): the amended statement applied to the concrete name
`"kernel"`. -/
theorem normalize_weight_name_spec_witness :
    strEndsWith "kernel" ":0" = false ∧
    normalize_weight_name "kernel" = "kernel" ∧
    normalize_weight_name (normalize_weight_name "kernel") =
      normalize_weight_name "kernel" :=
  ⟨by decide, normalize_weight_name_spec.2.1 "kernel" (by decide),
    normalize_weight_name_spec.2.2 "kernel" (by decide)⟩

/-- C5: constructing the converter with a negative `decimal_places` fails
(the constructor is a pure function: it involves no filesystem state), and
any non-negative `decimal_places` yields the converter. -/
theorem init_decimal_places_validation (d : ℤ) :
    (d < 0 → isErr (HDF5Converter.init d) = true) ∧
    (0 ≤ d → HDF5Converter.init d = .ok ⟨d⟩) := by
  constructor
  · intro h
    unfold HDF5Converter.init
    rw [if_pos h]
    rfl
  · intro h
    unfold HDF5Converter.init
    rw [if_neg (not_lt.mpr h)]

/-- C5 (witness): `decimal_places = -1` is rejected and the default
`decimal_places = 6` is accepted. -/
theorem init_decimal_places_validation_witness :
    ((-1 : ℤ) < 0 ∧ isErr (HDF5Converter.init (-1)) = true) ∧
    ((0 : ℤ) ≤ 6 ∧ HDF5Converter.init 6 = .ok ⟨6⟩) :=
  ⟨⟨by decide, (init_decimal_places_validation (-1)).1 (by decide)⟩,
    ⟨by decide, (init_decimal_places_validation 6).2 (by decide)⟩⟩

/-- C4: every conversion operation fails (producing no output) when the
source container's major Keras version is not `2`, and the version check
passes when the major version is `2`. -/
theorem version_gate (c : HDF5Converter) (fw : H5WeightsFile)
    (fm : H5MergedFile) :
    (majorVersion fw.keras_version ≠ "2" →
       isErr (h5_weights_to_tfjs_format fw) = true ∧
       isErr (h5_weights_to_json c fw) = true) ∧
    (majorVersion fm.keras_version ≠ "2" →
       isErr (h5_merged_saved_model_to_tfjs_format fm) = true ∧
       isErr (h5_merged_saved_model_to_json c fm) = true) ∧
    (∀ v, majorVersion v = "2" → check_version v = .ok ()) := by
  refine ⟨fun h => ?_, fun h => ?_, fun v h => ?_⟩
  · have hcv : check_version fw.keras_version =
        .error ("Expected Keras version 2; got Keras version " ++
          fw.keras_version) := by
      unfold check_version
      rw [if_pos h]
    constructor
    · unfold h5_weights_to_tfjs_format
      rw [hcv, except_bind_error]
      rfl
    · unfold h5_weights_to_json
      rw [hcv, except_bind_error]
      rfl
  · have hcv : check_version fm.keras_version =
        .error ("Expected Keras version 2; got Keras version " ++
          fm.keras_version) := by
      unfold check_version
      rw [if_pos h]
    constructor
    · unfold h5_merged_saved_model_to_tfjs_format
      rw [hcv, except_bind_error]
      rfl
    · unfold h5_merged_saved_model_to_json
      rw [hcv, except_bind_error]
      rfl
  · unfold check_version
    rw [if_neg (by simp [h])]

/-- A weights file with an unsupported Keras version (major version 3). -/
def fwBad : H5WeightsFile := ⟨"3.0.0", "tensorflow", [], fun _ => none⟩

/-- A merged file with an unsupported Keras version (major version 1). -/
def fmBad : H5MergedFile :=
  ⟨"1.2.3", "tensorflow", "cfg", none, [], fun _ => none, none⟩

/-- C4 (witness): the version gate applied to concrete files of major
versions 3 and 1, plus the version check passing at `"2.1.2"`. -/
theorem version_gate_witness :
    (majorVersion "3.0.0" ≠ "2" ∧
      isErr (h5_weights_to_tfjs_format fwBad) = true ∧
      isErr (h5_weights_to_json ⟨6⟩ fwBad) = true) ∧
    (majorVersion "1.2.3" ≠ "2" ∧
      isErr (h5_merged_saved_model_to_tfjs_format fmBad) = true ∧
      isErr (h5_merged_saved_model_to_json ⟨6⟩ fmBad) = true) ∧
    (majorVersion "2.1.2" = "2" ∧ check_version "2.1.2" = .ok ()) :=
  ⟨⟨by decide, ((version_gate ⟨6⟩ fwBad fmBad).1 (by decide)).1,
      ((version_gate ⟨6⟩ fwBad fmBad).1 (by decide)).2⟩,
    ⟨by decide, ((version_gate ⟨6⟩ fwBad fmBad).2.1 (by decide)).1,
      ((version_gate ⟨6⟩ fwBad fmBad).2.1 (by decide)).2⟩,
    ⟨by decide, (version_gate ⟨6⟩ fwBad fmBad).2.2 "2.1.2" (by decide)⟩⟩

/-- C1: `write_artifacts` with a non-empty topology writes the topology
JSON file FIRST and only then calls `write_weights` — the opposite of the
order the specification (and the code's own comment) requires, so an
interruption between the two steps can leave a topology JSON document with
no shard files. -/
theorem write_artifacts_json_before_weights (mj : ModelJson)
    (output_dir topology_filename : String) :
    write_artifacts (some mj) output_dir topology_filename =
      [FsEvent.writeJson (output_dir ++ "/" ++ topology_filename),
       FsEvent.writeWeights output_dir] := rfl

/-- C2 (counterexample): the JSON/ASCII conversion path is lossy: the
source value `1/10^7` comes out as `0` after the `np.round(·, 6)` applied
by `convert_h5_group_to_ascii` with the default `decimal_places = 6`. -/
theorem ascii_path_rounds_values :
    convert_h5_group_to_ascii ⟨6⟩
        (fun _ => some ⟨"float32", [1], [1/10000000]⟩) ["w"] =
      .ok (some [⟨"w", "float32", [1], [0]⟩]) ∧
    ((1 : ℚ)/10000000 ≠ 0) := by
  have hnp : npRound 6 ((1:ℚ)/10000000) = 0 := by
    unfold npRound roundHalfToEven
    norm_num
  constructor
  · calc convert_h5_group_to_ascii ⟨6⟩
          (fun _ => some ⟨"float32", [1], [1/10000000]⟩) ["w"]
        = .ok (some [⟨"w", "float32", [1],
            [npRound 6 ((1:ℚ)/10000000)]⟩]) := rfl
      _ = .ok (some [⟨"w", "float32", [1], [0]⟩]) := by rw [hnp]
  · norm_num

/-- C2 (amended): the binary-group path passes every tensor through
exactly unchanged; the JSON/ASCII path instead emits every value rounded
by `np.round(·, decimal_places)`, which is lossy for values with more
than `decimal_places` decimals. -/
theorem conversion_value_fidelity (c : HDF5Converter)
    (g : String → Option Tensor) (names : List String) :
    (∀ out, convert_h5_group g names = .ok (some out) →
       List.Forall₂
         (fun n e => g n = some e.data ∧
           e.name = normalize_weight_name n) names out) ∧
    (∀ out, c.convert_h5_group_to_ascii g names = .ok (some out) →
       List.Forall₂
         (fun n e => ∃ t, g n = some t ∧
           e.name = normalize_weight_name n ∧ e.dtype = t.dtype ∧
           e.shape = t.shape ∧
           e.value = t.data.map (npRound c.decimal_places)) names out) :=
  ⟨fun _ h => convert_h5_group_ok_some h,
   fun _ h => convert_h5_group_to_ascii_ok_some h⟩

/-- A two-tensor layer used as a concrete witness input. -/
def layerDense : H5Layer :=
  ⟨["kernel:0", "bias:0"], fun n =>
    if n = "kernel:0" then some ⟨"float32", [2], [1, 2]⟩
    else if n = "bias:0" then some ⟨"float32", [1], [3]⟩
    else none⟩

/-- C2 (witness): the amended statement applied to the concrete layer
`layerDense`, on both the binary and the ASCII paths. -/
theorem conversion_value_fidelity_witness :
    (convert_h5_group layerDense.dat ["kernel:0", "bias:0"] =
       .ok (some [⟨"kernel", ⟨"float32", [2], [1, 2]⟩⟩,
                  ⟨"bias", ⟨"float32", [1], [3]⟩⟩]) ∧
     List.Forall₂
       (fun n (e : WeightEntry) => layerDense.dat n = some e.data ∧
         e.name = normalize_weight_name n)
       ["kernel:0", "bias:0"]
       [⟨"kernel", ⟨"float32", [2], [1, 2]⟩⟩,
        ⟨"bias", ⟨"float32", [1], [3]⟩⟩]) ∧
    (convert_h5_group_to_ascii ⟨6⟩ layerDense.dat ["bias:0"] =
       .ok (some [⟨"bias", "float32", [1], [npRound 6 3]⟩]) ∧
     List.Forall₂
       (fun n (e : AsciiEntry) => ∃ t, layerDense.dat n = some t ∧
         e.name = normalize_weight_name n ∧ e.dtype = t.dtype ∧
         e.shape = t.shape ∧ e.value = t.data.map (npRound 6))
       ["bias:0"] [⟨"bias", "float32", [1], [npRound 6 3]⟩]) :=
  ⟨⟨rfl, (conversion_value_fidelity ⟨6⟩ layerDense.dat
      ["kernel:0", "bias:0"]).1 _ rfl⟩,
   ⟨rfl, (conversion_value_fidelity ⟨6⟩ layerDense.dat
      ["bias:0"]).2 _ rfl⟩⟩

/-- C6: a layer with an empty `weight_names` list contributes no entry at
all to the group list returned by `h5_weights_to_tfjs_format` and
`h5_merged_saved_model_to_tfjs_format`: the result is the same as if the
layer were absent. -/
theorem empty_group_skipped (f : H5WeightsFile) (fm : H5MergedFile)
    (ln : String) (layer : H5Layer) (pre post : List String) :
    (f.layers ln = some layer → layer.weight_names = [] →
       h5_weights_to_tfjs_format { f with layer_names := pre ++ ln :: post } =
         h5_weights_to_tfjs_format { f with layer_names := pre ++ post }) ∧
    (fm.model_weights ln = some layer → layer.weight_names = [] →
       h5_merged_saved_model_to_tfjs_format
           { fm with model_weights_names := pre ++ ln :: post } =
         h5_merged_saved_model_to_tfjs_format
           { fm with model_weights_names := pre ++ post }) := by
  constructor
  · intro hl hw
    unfold h5_weights_to_tfjs_format
    rw [collectGroups_skip hl hw]
  · intro hl hw
    unfold h5_merged_saved_model_to_tfjs_format
    rw [collectGroups_skip hl hw]

/-- A layer with zero tensors. -/
def layerEmpty : H5Layer := ⟨[], fun _ => none⟩

/-- A weights file with a two-tensor layer followed by a zero-tensor
layer. -/
def fwEx : H5WeightsFile :=
  ⟨"2.1.2", "tensorflow", ["dense", "emptyL"], fun n =>
    if n = "dense" then some layerDense
    else if n = "emptyL" then some layerEmpty
    else none⟩

/-- A merged file with the same layers under `model_weights`. -/
def fmEx : H5MergedFile :=
  ⟨"2.1.2", "tensorflow", "cfg", none, ["dense", "emptyL"],
    fwEx.layers, none⟩

/-- C6 (witness): dropping the concrete zero-tensor layer `"emptyL"` from
the layer list does not change either conversion result. -/
theorem empty_group_skipped_witness :
    (fwEx.layers "emptyL" = some layerEmpty ∧
      layerEmpty.weight_names = [] ∧
      h5_weights_to_tfjs_format
          { fwEx with layer_names := ["dense"] ++ "emptyL" :: [] } =
        h5_weights_to_tfjs_format
          { fwEx with layer_names := ["dense"] ++ [] }) ∧
    (fmEx.model_weights "emptyL" = some layerEmpty ∧
      h5_merged_saved_model_to_tfjs_format
          { fmEx with model_weights_names := ["dense"] ++ "emptyL" :: [] } =
        h5_merged_saved_model_to_tfjs_format
          { fmEx with model_weights_names := ["dense"] ++ [] }) :=
  ⟨⟨rfl, rfl,
     (empty_group_skipped fwEx fmEx "emptyL" layerEmpty ["dense"] []).1
       rfl rfl⟩,
   ⟨rfl,
     (empty_group_skipped fwEx fmEx "emptyL" layerEmpty ["dense"] []).2
       rfl rfl⟩⟩

/-- The normalized weight-name list a layer contributes to the output
(`none` for a missing or zero-tensor layer). -/
def layerNamesOf (lookup : String → Option H5Layer) (ln : String) :
    Option (List String) :=
  (lookup ln).bind (fun l =>
    if l.weight_names.isEmpty then none
    else some (l.weight_names.map normalize_weight_name))

/-- C7: conversion preserves order end-to-end: each group lists its
entries in the source layer's `weight_names` order (also on the ASCII
path), and the group sequence follows the source layer order, with only
zero-tensor layers dropped. -/
theorem conversion_order_preserved (f : H5WeightsFile) (fm : H5MergedFile)
    (c : HDF5Converter) (g : String → Option Tensor) (names : List String) :
    (∀ gs, h5_weights_to_tfjs_format f = .ok gs →
       gs.map (List.map WeightEntry.name) =
         f.layer_names.filterMap (layerNamesOf f.layers)) ∧
    (∀ mj gsm, h5_merged_saved_model_to_tfjs_format fm = .ok (mj, gsm) →
       gsm.map (List.map WeightEntry.name) =
         fm.model_weights_names.filterMap (layerNamesOf fm.model_weights)) ∧
    (∀ out, convert_h5_group g names = .ok (some out) →
       out.map WeightEntry.name = names.map normalize_weight_name) ∧
    (∀ out, c.convert_h5_group_to_ascii g names = .ok (some out) →
       out.map AsciiEntry.name = names.map normalize_weight_name) := by
  refine ⟨fun gs h => ?_, fun mj gsm h => ?_, fun out h => ?_,
    fun out h => ?_⟩
  · unfold h5_weights_to_tfjs_format at h
    cases hcv : check_version f.keras_version with
    | error e => rw [hcv, except_bind_error] at h; cases h
    | ok u =>
      rw [hcv, except_bind_ok] at h
      exact collectGroups_ok_names h
  · unfold h5_merged_saved_model_to_tfjs_format at h
    cases hcv : check_version fm.keras_version with
    | error e => rw [hcv, except_bind_error] at h; cases h
    | ok u =>
      rw [hcv, except_bind_ok] at h
      cases hr : collectGroups fm.model_weights fm.model_weights_names with
      | error e => rw [hr, except_bind_error] at h; cases h
      | ok gs2 =>
        rw [hr, except_bind_ok] at h
        have hp := except_ok_inj h
        have hgs : gs2 = gsm := congrArg Prod.snd hp
        subst hgs
        exact collectGroups_ok_names hr
  · exact forall₂_map_eq
      (List.Forall₂.imp (fun a b hy => hy.2) (convert_h5_group_ok_some h))
  · refine forall₂_map_eq
      (List.Forall₂.imp (fun a b hy => ?_)
        (convert_h5_group_to_ascii_ok_some h))
    obtain ⟨t, -, hn, -, -, -⟩ := hy
    exact hn

/-- C7 (witness): the order statement applied to the concrete file `fwEx`
(one two-tensor layer, one empty layer) and to a concrete group. -/
theorem conversion_order_preserved_witness :
    (h5_weights_to_tfjs_format fwEx =
       .ok [[⟨"kernel", ⟨"float32", [2], [1, 2]⟩⟩,
             ⟨"bias", ⟨"float32", [1], [3]⟩⟩]] ∧
     ([[⟨"kernel", ⟨"float32", [2], [1, 2]⟩⟩,
        ⟨"bias", ⟨"float32", [1], [3]⟩⟩]] :
         List (List WeightEntry)).map (List.map WeightEntry.name) =
       fwEx.layer_names.filterMap (layerNamesOf fwEx.layers)) ∧
    (convert_h5_group layerDense.dat ["kernel:0", "bias:0"] =
       .ok (some [⟨"kernel", ⟨"float32", [2], [1, 2]⟩⟩,
                  ⟨"bias", ⟨"float32", [1], [3]⟩⟩]) ∧
     ([⟨"kernel", ⟨"float32", [2], [1, 2]⟩⟩,
       ⟨"bias", ⟨"float32", [1], [3]⟩⟩] :
         List WeightEntry).map WeightEntry.name =
       ["kernel:0", "bias:0"].map normalize_weight_name) :=
  ⟨⟨rfl,
     (conversion_order_preserved fwEx fmEx ⟨6⟩ layerDense.dat []).1 _ rfl⟩,
   ⟨rfl,
     (conversion_order_preserved fwEx fmEx ⟨6⟩ layerDense.dat
        ["kernel:0", "bias:0"]).2.2.1 _ rfl⟩⟩

/-- C3: when the output path exists as a regular file, `save_model` fails
and its trace contains no artifact writes (no shard/weight files, no
topology JSON); when the output path does not exist at all, the directory
is created before any artifact write appears in the trace. -/
theorem save_model_path_handling (fm : H5MergedFile) (fs : FS)
    (dir : String) :
    (fs.isfile dir = true →
       isErr (save_model fm fs dir).2 = true ∧
       (save_model fm fs dir).1.all (fun e => !writesArtifact e) = true) ∧
    (fs.isfile dir = true →
       ∀ p, h5_merged_saved_model_to_tfjs_format fm = .ok p →
       (save_model fm fs dir).2 =
         .error ("Path \"" ++ dir ++ "\" already exists as a file.")) ∧
    (fs.isfile dir = false → fs.isdir dir = false →
       FsEvent.mkdirOut dir ∈
         (save_model fm fs dir).1.takeWhile (fun e => !writesArtifact e) ∨
       (save_model fm fs dir).1.all (fun e => !writesArtifact e) = true) := by
  refine ⟨?_, ?_, ?_⟩
  · intro hfile
    cases hconv : h5_merged_saved_model_to_tfjs_format fm with
    | error e => simp [save_model, hconv, isErr, writesArtifact]
    | ok p =>
      obtain ⟨mjv, gsv⟩ := p
      simp [save_model, hconv, hfile, isErr, writesArtifact]
  · intro hfile p hconv
    obtain ⟨mjv, gsv⟩ := p
    simp [save_model, hconv, hfile]
  · intro hfile hdir
    cases hconv : h5_merged_saved_model_to_tfjs_format fm with
    | error e =>
      right
      simp [save_model, hconv, writesArtifact]
    | ok p =>
      obtain ⟨mjv, gsv⟩ := p
      left
      simp [save_model, hconv, hfile, hdir, write_artifacts,
        writesArtifact, List.takeWhile]

/-- A filesystem where every path is an existing regular file. -/
def fsAllFiles : FS := ⟨fun _ => true, fun _ => false⟩

/-- A filesystem where no path exists. -/
def fsNothing : FS := ⟨fun _ => false, fun _ => false⟩

/-- C3 (witness): `save_model` on a concrete model targeting an existing
regular file fails without artifact writes, and targeting a non-existent
path creates the directory before the artifact writes. -/
theorem save_model_path_handling_witness :
    (fsAllFiles.isfile "out" = true ∧
      isErr (save_model fmEx fsAllFiles "out").2 = true ∧
      (save_model fmEx fsAllFiles "out").1.all
        (fun e => !writesArtifact e) = true) ∧
    ((save_model fmEx fsAllFiles "out").2 =
      .error ("Path \"" ++ "out" ++ "\" already exists as a file.")) ∧
    (fsNothing.isfile "out" = false ∧ fsNothing.isdir "out" = false ∧
      (FsEvent.mkdirOut "out" ∈
         (save_model fmEx fsNothing "out").1.takeWhile
           (fun e => !writesArtifact e) ∨
       (save_model fmEx fsNothing "out").1.all
         (fun e => !writesArtifact e) = true)) :=
  ⟨⟨rfl, ((save_model_path_handling fmEx fsAllFiles "out").1 rfl).1,
     ((save_model_path_handling fmEx fsAllFiles "out").1 rfl).2⟩,
   (save_model_path_handling fmEx fsAllFiles "out").2.1 rfl _ rfl,
   ⟨rfl, rfl,
     (save_model_path_handling fmEx fsNothing "out").2.2 rfl rfl⟩⟩

/-- C9: the `data.json` record holds exactly the ten fields, in order;
`train_time` is the duration between the clock reads around the single
timed `fit()` of `train_epochs` epochs divided by `train_epochs`, with the
burn-in fit strictly before the first read; `predict_time` is the duration
between the clock reads around the `PREDICT_RUNS` timed `predict()` runs
divided by `PREDICT_RUNS`, with the burn-in predicts strictly before. -/
theorem benchmark_record_and_timing (mn d : String) (is ts : List Nat)
    (opt loss : String) (bs te : Nat) (clock : Nat → ℚ) :
    ((Benchmarks.benchmark_and_serialize_model mn d is ts opt loss bs te
        clock).2.1.map Prod.fst =
      ["name", "description", "optimizer", "loss", "input_shape",
       "target_shape", "batch_size", "train_epochs", "train_time",
       "predict_time"]) ∧
    ((Benchmarks.benchmark_and_serialize_model mn d is ts opt loss bs te
        clock).2.2.1 = (clock 1 - clock 0) / (te : ℚ)) ∧
    ((Benchmarks.benchmark_and_serialize_model mn d is ts opt loss bs te
        clock).2.2.2 =
      (clock 3 - clock 2) / (Benchmarks.PREDICT_RUNS : ℚ)) ∧
    ((Benchmarks.benchmark_and_serialize_model mn d is ts opt loss bs te
        clock).1.takeWhile (fun e => e != .timeRead 0) =
      [.fit Benchmarks.FIT_BURNIN_EPOCHS]) ∧
    (((Benchmarks.benchmark_and_serialize_model mn d is ts opt loss bs te
        clock).1.dropWhile (fun e => e != .timeRead 0)).tail.takeWhile
          (fun e => e != .timeRead 1) = [.fit te]) ∧
    (((Benchmarks.benchmark_and_serialize_model mn d is ts opt loss bs te
        clock).1.dropWhile (fun e => e != .timeRead 2)).tail.takeWhile
          (fun e => e != .timeRead 3) =
      List.replicate Benchmarks.PREDICT_RUNS .predict) :=
  ⟨rfl, rfl, rfl, rfl, rfl, rfl⟩

/-- C10: on the JSON paths (`h5_weights_to_json` and
`h5_merged_saved_model_to_json`) a layer with an empty `weight_names`
list is not skipped: its name appears in the output weights dictionary
mapped to `None` — in contrast to the binary path, which omits the layer
entirely. -/
theorem json_paths_keep_empty_layers (c : HDF5Converter)
    (fw : H5WeightsFile) (fm : H5MergedFile) (ln : String)
    (layer : H5Layer) :
    (fw.layers ln = some layer → layer.weight_names = [] →
       ln ∈ fw.layer_names →
       ∀ out, h5_weights_to_json c fw = .ok out →
         dictGet out.weights ln = some none) ∧
    (fm.model_weights ln = some layer → layer.weight_names = [] →
       ln ∈ fm.model_weights_names →
       ∀ out, h5_merged_saved_model_to_json c fm = .ok out →
         dictGet out.model_weights ln = some none) ∧
    (check_version fw.keras_version = .ok () →
       fw.layers ln = some layer → layer.weight_names = [] →
       h5_weights_to_tfjs_format { fw with layer_names := [ln] } =
         .ok []) := by
  refine ⟨fun hl hw hmem out h => ?_, fun hl hw hmem out h => ?_,
    fun hcv hl hw => ?_⟩
  · unfold h5_weights_to_json at h
    cases hcv : check_version fw.keras_version with
    | error e => rw [hcv, except_bind_error] at h; cases h
    | ok u =>
      rw [hcv, except_bind_ok] at h
      cases hws : collectAscii c fw.layers fw.layer_names with
      | error e => rw [hws, except_bind_error] at h; cases h
      | ok ws =>
        rw [hws, except_bind_ok] at h
        cases h
        exact collectAsciiAux_mem_none hl hw fw.layer_names [] ws hmem hws
  · unfold h5_merged_saved_model_to_json at h
    cases hcv : check_version fm.keras_version with
    | error e => rw [hcv, except_bind_error] at h; cases h
    | ok u =>
      rw [hcv, except_bind_ok] at h
      cases hws : collectAscii c fm.model_weights
          fm.model_weights_names with
      | error e => rw [hws, except_bind_error] at h; cases h
      | ok ws =>
        rw [hws, except_bind_ok] at h
        cases how : optimizerPart c fm.optimizer with
        | error e =>
          rw [how, except_bind_error] at h
          cases h
        | ok ow =>
          rw [how, except_bind_ok] at h
          cases h
          exact collectAsciiAux_mem_none hl hw fm.model_weights_names []
            ws hmem hws
  · show (do
      check_version fw.keras_version
      collectGroups fw.layers [ln] : Except String _) = .ok []
    rw [hcv, except_bind_ok]
    exact collectGroups_skip hl hw [] []

/-- The ASCII entries produced for the two-tensor layer `layerDense`. -/
def denseAsciiEx : List AsciiEntry :=
  [⟨"kernel", "float32", [2], [npRound 6 1, npRound 6 2]⟩,
   ⟨"bias", "float32", [1], [npRound 6 3]⟩]

/-- C10 (witness): the concrete files `fwEx` / `fmEx` with the empty
layer `"emptyL"`: both JSON outputs keep the key mapped to `None`, while
the binary path run on the empty layer alone returns no group. -/
theorem json_paths_keep_empty_layers_witness :
    (fwEx.layers "emptyL" = some layerEmpty ∧
      layerEmpty.weight_names = [] ∧ "emptyL" ∈ fwEx.layer_names ∧
      h5_weights_to_json ⟨6⟩ fwEx =
        .ok ⟨"2.1.2", "tensorflow",
          [("dense", some denseAsciiEx), ("emptyL", none)]⟩ ∧
      dictGet [("dense", some denseAsciiEx), ("emptyL", none)] "emptyL" =
        some none) ∧
    (h5_merged_saved_model_to_json ⟨6⟩ fmEx =
        .ok ⟨"2.1.2", "tensorflow", "cfg", none,
          [("dense", some denseAsciiEx), ("emptyL", none)], []⟩ ∧
      dictGet [("dense", some denseAsciiEx), ("emptyL", none)] "emptyL" =
        some none) ∧
    (check_version fwEx.keras_version = .ok () ∧
      h5_weights_to_tfjs_format { fwEx with layer_names := ["emptyL"] } =
        .ok []) :=
  ⟨⟨rfl, rfl, by decide, rfl,
     (json_paths_keep_empty_layers ⟨6⟩ fwEx fmEx "emptyL" layerEmpty).1
       rfl rfl (by decide) _ rfl⟩,
   ⟨rfl,
     (json_paths_keep_empty_layers ⟨6⟩ fwEx fmEx "emptyL" layerEmpty).2.1
       rfl rfl (by decide) _ rfl⟩,
   ⟨rfl,
     (json_paths_keep_empty_layers ⟨6⟩ fwEx fmEx "emptyL" layerEmpty).2.2
       rfl rfl rfl⟩⟩

end TfjsH5
